import Mathlib

/-
  Verification of the Conversational Context Orchestrator of the
  Semantic-Search repository (src/backend/main.py, src/backend/agent/agent.py).

  The Python code is shallowly embedded: the mutable session dictionary
  becomes an association list threaded through every operation, wall-clock
  timestamps and freshly minted uuid4 identifiers become explicit `now` /
  `fresh` arguments, network calls to an LLM backend become an oracle
  function returning `Except` (error = raised exception), and `print`
  output becomes an explicit component of the return value.
-/

namespace SemanticSearch

/-- Role tag of a LangChain chat message: `system` and `human` appear in the
prompt template, `human`/`ai` are what `add_user_message`/`add_ai_message`
store in the session history (`msg.type` is "human"/"ai"). -/
inductive Role
  | system
  | human
  | ai
deriving DecidableEq

/-- One chat message: a role plus its text content. -/
structure Msg where
  role : Role
  content : String
deriving DecidableEq

/-- LangChain's ConversationBufferWindowMemory as the repository uses it:
a window size `k` plus the backing chat message history
(`chat_memory.messages`).  The add operations append and never trim;
in the library the window applies only inside load_memory_variables. -/
structure ConversationBufferWindowMemory where
  k : Nat
  messages : List Msg
deriving DecidableEq

/-- chat_memory.add_user_message: appends a human message (no trimming). -/
def add_user_message (m : ConversationBufferWindowMemory) (s : String) :
    ConversationBufferWindowMemory :=
  { m with messages := m.messages ++ [Msg.mk Role.human s] }

/-- chat_memory.add_ai_message: appends an ai message (no trimming). -/
def add_ai_message (m : ConversationBufferWindowMemory) (s : String) :
    ConversationBufferWindowMemory :=
  { m with messages := m.messages ++ [Msg.mk Role.ai s] }

/-- The library's load_memory_variables applies the window here, returning
only the last `2 * k` stored messages; the repository never calls it
(both agent.py line 92 and main.py line 138 read chat_memory.messages
directly), so this windowing never takes effect at runtime. -/
def load_memory_variables (m : ConversationBufferWindowMemory) : List Msg :=
  if m.k > 0 then m.messages.drop (m.messages.length - 2 * m.k) else []

/-- One entry of SessionManager.sessions: the per-session dict
holding the memory object and the two timestamps (main.py lines 37-45).
Timestamps are abstract instants on an integer clock. -/
structure SessionData where
  memory : ConversationBufferWindowMemory
  created_at : Int
  last_accessed : Int
deriving DecidableEq

/-- SessionManager.sessions: the Python dict modelled as an insertion-ordered
association list from session identifier to session data. -/
abbrev Store := List (String × SessionData)

/-- Dict lookup: first (unique, for a well-formed dict) entry with this key. -/
def find_session : Store → String → Option SessionData
  | [], _ => none
  | (s, d) :: rest, sid => if s = sid then some d else find_session rest sid

/-- Dict update of an existing key: replace the entry in place. -/
def update_session : Store → String → SessionData → Store
  | [], _, _ => []
  | (s, d0) :: rest, sid, d =>
    if s = sid then (s, d) :: rest else (s, d0) :: update_session rest sid d

/-- In-place mutation of a stored session's memory object
(the aliasing of `memory.chat_memory.add_user_message` in main.py:
the object obtained from get_memory is the one stored in the dict). -/
def set_memory : Store → String → ConversationBufferWindowMemory → Store
  | [], _, _ => []
  | (s, d) :: rest, sid, m =>
    if s = sid then (s, { d with memory := m }) :: rest
    else (s, d) :: set_memory rest sid m

/-- Dict deletion (`del self.sessions[sid]`). -/
def erase_session : Store → String → Store
  | [], _ => []
  | (s, d) :: rest, sid =>
    if s = sid then erase_session rest sid else (s, d) :: erase_session rest sid

/-- The identifier actually used by get_or_create_session: Python's
`if not session_id` treats both None and the empty string as absent,
minting a fresh uuid4 (the `fresh` oracle) in either case. -/
def resolved_id (session_id : Option String) (fresh : String) : String :=
  match session_id with
  | none => fresh
  | some s => if s = "" then fresh else s

/-- SessionManager.get_or_create_session (main.py lines 31-51): absent or
falsy identifiers are replaced by a minted one; an identifier not in the
dict gets a new session with an empty windowed memory of size max_memory
and both timestamps set to now; a known identifier has its memory's `k`
overwritten and its last_accessed refreshed, and is returned unchanged. -/
def get_or_create_session (sessions : Store) (session_id : Option String)
    (max_memory : Nat) (fresh : String) (now : Int) : Store × String :=
  let sid := resolved_id session_id fresh
  match find_session sessions sid with
  | none =>
    (sessions ++ [(sid, ⟨⟨max_memory, []⟩, now, now⟩)], sid)
  | some data =>
    (update_session sessions sid
      { data with memory := { data.memory with k := max_memory },
                  last_accessed := now }, sid)

/-- SessionManager.get_memory (main.py lines 53-57). -/
def get_memory (sessions : Store) (session_id : String) :
    Option ConversationBufferWindowMemory :=
  (find_session sessions session_id).map (fun d => d.memory)

/-- SessionManager.clear_session (main.py lines 59-65): deletes the entry
and reports whether it existed. -/
def clear_session (sessions : Store) (session_id : String) : Store × Bool :=
  match find_session sessions session_id with
  | some _ => (erase_session sessions session_id, true)
  | none => (sessions, false)

/-- SessionManager.cleanup_old_sessions (main.py lines 67-77): collects the
identifiers whose last_accessed is strictly before `now - cleanup_hours`,
deletes them one by one, and prints how many were removed (the printed
count is the second component here). -/
def cleanup_old_sessions (sessions : Store) (now cleanup_hours : Int) :
    Store × Nat :=
  let cutoff_time := now - cleanup_hours
  let to_remove :=
    (sessions.filter (fun p => decide (p.2.last_accessed < cutoff_time))).map Prod.fst
  (to_remove.foldl (fun acc sid => erase_session acc sid) sessions,
   to_remove.length)

/-- An item returned by the semantic-retrieval collaborator
(agent/semantic_search.py suggestion dict, as consumed by main.py). -/
structure RetrievedItem where
  product_name : String
  category : String
  actual_price : String
  img_link : String
  description_chunk : String
deriving DecidableEq

/-- One line of the product block (main.py lines 102-105, generator body). -/
def format_product (s : RetrievedItem) : String :=
  s.product_name ++ " (" ++ s.category ++ ") - $" ++ s.actual_price ++ ": " ++
    s.description_chunk ++ "\nImage: " ++ s.img_link

/-- product_info: newline-joined product block (main.py lines 102-105). -/
def format_products (l : List RetrievedItem) : String :=
  String.intercalate "\n" (l.map format_product)

/-- The two LLM handles the agent may hold (agent.py: gemini / huggingface). -/
inductive LLM
  | gemini
  | huggingface
deriving DecidableEq

/-- RAGAgent after setup_models: each handle is present exactly when its
credential was configured and the constructor did not raise; absence of a
credential leaves the field None rather than crashing startup. -/
structure RAGAgent where
  gemini_llm : Option LLM
  hf_llm : Option LLM
deriving DecidableEq

/-- RAGAgent.get_llm (agent.py lines 44-51): string-keyed dispatch; any
model name without a live handle raises ValueError (the Except.error). -/
def get_llm (a : RAGAgent) (model : String) : Except String LLM :=
  if model = "gemini" ∧ a.gemini_llm.isSome then Except.ok LLM.gemini
  else if model = "huggingface" ∧ a.hf_llm.isSome then Except.ok LLM.huggingface
  else Except.error ("Model " ++ model ++ " not available")

/-- The system message of the ChatPromptTemplate (agent.py lines 67-80) after
format substitution of product_info and web_results. -/
def system_prompt (product_info web_results : String) : String :=
  "You are an expert assistant with access to product database and web search results.\n\nProduct Information:\n" ++
    product_info ++
    "\n\nWeb Search Results:\n" ++
    web_results ++
    "\n\nIMPORTANT INSTRUCTIONS:\n- Always review the conversation history before responding\n- When user asks follow-up questions like \"which one\" or \"from those you mentioned\", refer back to your previous responses\n- If you mentioned specific products/items earlier, reference them directly\n- Use information from product database, web search, AND previous conversation\n- Be consistent with what you said before"

/-- The message sequence chain.invoke hands to the model (agent.py lines
66-100): the formatted system message, then the chat history injected at
the MessagesPlaceholder, then the new human turn last. -/
def assemble_messages (user_input product_info web_results : String)
    (chat_history : List Msg) : List Msg :=
  Msg.mk Role.system (system_prompt product_info web_results) ::
    (chat_history ++ [Msg.mk Role.human user_input])

/-- Rendered size of an assembled prompt, in characters of content. -/
def prompt_size (msgs : List Msg) : Nat :=
  (msgs.map (fun m => m.content.length)).sum

/-- RAGAgent.query_with_memory (agent.py lines 53-106).  The network call
chain.invoke is the oracle `invoke_llm`; `Except.error` models a raised
exception.  The surrounding try/except turns every exception — from
get_llm or from the invocation — into the apology string.  The boolean
output records whether a network invocation was attempted.
Note agent.py line 92 reads chat_memory.messages directly (the
`if ... else []` is the identity), bypassing the memory window. -/
def query_with_memory (a : RAGAgent)
    (user_input product_info web_results : String)
    (memory : ConversationBufferWindowMemory) (model : String)
    (invoke_llm : LLM → List Msg → Except String String) : String × Bool :=
  match get_llm a model with
  | Except.error _ => ("Error processing request with " ++ model ++ " model", false)
  | Except.ok llm =>
    let chat_history := memory.messages
    match invoke_llm llm
        (assemble_messages user_input product_info web_results chat_history) with
    | Except.ok response => (response, true)
    | Except.error _ =>
      ("Error processing request with " ++ model ++ " model", true)

/-- The fallback prompt of query_llm_with_context (agent.py lines 134-140). -/
def simple_prompt (user_input product_info web_results : String) : String :=
  "Based on the following information, answer the question:\n\nProduct Info: " ++
    product_info ++ "\nWeb Results: " ++ web_results ++ "\nQuestion: " ++
    user_input ++ "\n\nAnswer:"

/-- query_llm_with_context (agent.py lines 112-146): with a memory object it
delegates to query_with_memory; without one it invokes the bare LLM on the
simple prompt, every exception again caught into an apology string. -/
def query_llm_with_context (user_input product_info web_results : String)
    (memory : Option ConversationBufferWindowMemory) (model : String)
    (a : RAGAgent)
    (invoke_llm : LLM → List Msg → Except String String) : String × Bool :=
  match memory with
  | some m =>
    query_with_memory a user_input product_info web_results m model invoke_llm
  | none =>
    match get_llm a model with
    | Except.error _ => ("Error processing request", false)
    | Except.ok llm =>
      match invoke_llm llm
          [Msg.mk Role.human (simple_prompt user_input product_info web_results)] with
      | Except.ok response => (response, true)
      | Except.error _ => ("Error processing request", true)

/-- Body of POST /search (models/requests.py). -/
structure QueryRequest where
  user_input : String
  model : String
  session_id : Option String
  max_memory : Nat
deriving DecidableEq

/-- Response body of POST /search (main.py lines 122-127). -/
structure SearchResponse where
  result : String
  session_id : String
  semantic_results_count : Nat
  has_conversation_history : Bool
deriving DecidableEq

/-- The /search handler (main.py lines 82-127).  The collaborator outputs
(semantic_results, web_snippets), the minted uuid and the clock are oracle
arguments.  After the gateway returns, the exchange is appended to the
session's memory whenever the session has one — unconditionally of the
invocation outcome — and has_conversation_history is read from the
mutated memory object. -/
def search (sessions : Store) (query : QueryRequest) (fresh : String)
    (now : Int) (semantic_results : List RetrievedItem) (web_snippets : String)
    (a : RAGAgent) (invoke_llm : LLM → List Msg → Except String String) :
    Store × SearchResponse :=
  let resolved := get_or_create_session sessions query.session_id
    query.max_memory fresh now
  let sessions1 := resolved.1
  let session_id := resolved.2
  let memory := get_memory sessions1 session_id
  let product_info := format_products semantic_results
  let qres := query_llm_with_context query.user_input product_info
    web_snippets memory query.model a invoke_llm
  let response := qres.1
  match memory with
  | some m =>
    let m2 := add_ai_message (add_user_message m query.user_input) response
    (set_memory sessions1 session_id m2,
     ⟨response, session_id, semantic_results.length, !m2.messages.isEmpty⟩)
  | none =>
    (sessions1, ⟨response, session_id, semantic_results.length, false⟩)

/-- Response of GET /session/{session_id}/history (main.py lines 130-157):
either the not-found error object or the role-tagged history plus the raw
stored message count. -/
inductive HistoryResponse
  | notFound (session_id : String)
  | ok (session_id : String) (history : List (String × String))
      (message_count : Nat)
deriving DecidableEq

/-- The role mapping of the history loop (main.py lines 140-151):
human messages become "user" entries, ai messages "assistant" entries,
anything else is skipped. -/
def history_entry (m : Msg) : Option (String × String) :=
  match m.role with
  | Role.human => some ("user", m.content)
  | Role.ai => some ("assistant", m.content)
  | Role.system => none

/-- GET /session/{session_id}/history (main.py lines 130-157). -/
def get_session_history (sessions : Store) (session_id : String) :
    HistoryResponse :=
  match get_memory sessions session_id with
  | none => HistoryResponse.notFound session_id
  | some memory =>
    HistoryResponse.ok session_id (memory.messages.filterMap history_entry)
      memory.messages.length

/-- Well-formedness of the Python dict model: keys are unique. -/
def NodupKeys (sessions : Store) : Prop :=
  (sessions.map Prod.fst).Nodup

/-! ## Association-list lemmas about the session store -/

theorem find_session_append_self (sessions : Store) (sid : String)
    (d : SessionData) (h : find_session sessions sid = none) :
    find_session (sessions ++ [(sid, d)]) sid = some d := by
  induction sessions with
  | nil => simp [find_session]
  | cons p rest ih =>
    obtain ⟨s, v⟩ := p
    by_cases hs : s = sid
    · simp [find_session, hs] at h
    · simp only [find_session, if_neg hs] at h
      simpa only [List.cons_append, find_session, if_neg hs] using ih h

theorem find_session_update_self (sessions : Store) (sid : String)
    (d : SessionData) (d0 : SessionData)
    (h : find_session sessions sid = some d0) :
    find_session (update_session sessions sid d) sid = some d := by
  induction sessions with
  | nil => simp [find_session] at h
  | cons p rest ih =>
    obtain ⟨s, v⟩ := p
    by_cases hs : s = sid
    · simp [update_session, find_session, hs]
    · simp only [find_session, if_neg hs] at h
      simpa only [update_session, if_neg hs, find_session] using ih h

theorem find_session_set_memory_self (sessions : Store) (sid : String)
    (m : ConversationBufferWindowMemory) (d0 : SessionData)
    (h : find_session sessions sid = some d0) :
    find_session (set_memory sessions sid m) sid =
      some { d0 with memory := m } := by
  induction sessions with
  | nil => simp [find_session] at h
  | cons p rest ih =>
    obtain ⟨s, v⟩ := p
    by_cases hs : s = sid
    · simp only [find_session, if_pos hs] at h
      injection h with h
      subst h
      simp [set_memory, find_session, hs]
    · simp only [find_session, if_neg hs] at h
      simpa only [set_memory, if_neg hs, find_session] using ih h

theorem find_session_erase (sessions : Store) (a sid : String) :
    find_session (erase_session sessions a) sid =
      if sid = a then none else find_session sessions sid := by
  induction sessions with
  | nil => simp [erase_session, find_session]
  | cons p rest ih =>
    obtain ⟨s, v⟩ := p
    by_cases hsa : s = a
    · subst hsa
      have he : erase_session ((s, v) :: rest) s = erase_session rest s := by
        simp [erase_session]
      rw [he, ih]
      by_cases h2 : sid = s
      · simp [h2]
      · have h3 : ¬ s = sid := fun h => h2 h.symm
        simp [find_session, h2, h3]
    · have he : erase_session ((s, v) :: rest) a =
          (s, v) :: erase_session rest a := by
        simp [erase_session, hsa]
      rw [he]
      by_cases h2 : s = sid
      · have h4 : ¬ sid = a := fun hq => hsa (h2.trans hq)
        simp [find_session, h2, h4]
      · simp only [find_session, if_neg h2]
        exact ih

theorem find_session_eq_none_iff (sessions : Store) (sid : String) :
    find_session sessions sid = none ↔ sid ∉ sessions.map Prod.fst := by
  induction sessions with
  | nil => simp [find_session]
  | cons p rest ih =>
    obtain ⟨s, v⟩ := p
    by_cases hs : s = sid
    · subst hs
      simp [find_session]
    · have h3 : ¬ sid = s := fun h => hs h.symm
      simp only [find_session, if_neg hs, List.map_cons, List.mem_cons]
      rw [ih]
      constructor
      · intro h1 h2
        rcases h2 with h2 | h2
        · exact h3 h2
        · exact h1 h2
      · intro h1 h2
        exact h1 (Or.inr h2)

theorem find_session_eq_some_iff (sessions : Store) (h : NodupKeys sessions)
    (sid : String) (d : SessionData) :
    find_session sessions sid = some d ↔ (sid, d) ∈ sessions := by
  induction sessions with
  | nil => simp [find_session]
  | cons p rest ih =>
    obtain ⟨s, v⟩ := p
    have hh : (s :: rest.map Prod.fst).Nodup := by
      unfold NodupKeys at h
      rwa [List.map_cons] at h
    have hnd := List.nodup_cons.mp hh
    have ihr := ih hnd.2
    by_cases hs : s = sid
    · subst hs
      simp only [find_session, if_pos rfl]
      constructor
      · intro h1
        injection h1 with h1
        subst h1
        exact List.mem_cons_self _ _
      · intro h1
        rcases List.mem_cons.mp h1 with h2 | h2
        · have h3 : d = v := congrArg Prod.snd h2
          simp [h3]
        · exact absurd (List.mem_map_of_mem Prod.fst h2) hnd.1
    · simp only [find_session, if_neg hs]
      rw [ihr]
      constructor
      · exact fun h1 => List.mem_cons_of_mem _ h1
      · intro h1
        rcases List.mem_cons.mp h1 with h2 | h2
        · exact absurd (show s = sid from (congrArg Prod.fst h2).symm) hs
        · exact h2

theorem erase_session_eq_filter (sessions : Store) (a : String) :
    erase_session sessions a =
      sessions.filter (fun p => decide (p.1 ≠ a)) := by
  induction sessions with
  | nil => rfl
  | cons p rest ih =>
    obtain ⟨s, v⟩ := p
    by_cases hs : s = a
    · simp [erase_session, hs, ih]
    · simp [erase_session, hs, ih]

theorem foldl_erase_eq_filter (ids : List String) (sessions : Store) :
    ids.foldl (fun acc sid => erase_session acc sid) sessions =
      sessions.filter (fun p => decide (p.1 ∉ ids)) := by
  induction ids generalizing sessions with
  | nil => simp
  | cons a t ih =>
    rw [List.foldl_cons, ih, erase_session_eq_filter, List.filter_filter]
    apply List.filter_congr
    intro p _
    by_cases h1 : p.1 = a <;> by_cases h2 : p.1 ∈ t <;> simp [h1, h2]

theorem length_filter_add_length_filter_not {α : Type} (l : List α)
    (p : α → Bool) :
    (l.filter p).length + (l.filter (fun a => !(p a))).length = l.length := by
  induction l with
  | nil => rfl
  | cons a t ih =>
    cases h : p a <;> simp [List.filter_cons, h] <;> omega

theorem map_fst_update (sessions : Store) (sid : String) (d : SessionData) :
    (update_session sessions sid d).map Prod.fst = sessions.map Prod.fst := by
  induction sessions with
  | nil => rfl
  | cons p rest ih =>
    obtain ⟨s, v⟩ := p
    by_cases hs : s = sid <;> simp [update_session, hs, ih]

theorem map_fst_set_memory (sessions : Store) (sid : String)
    (m : ConversationBufferWindowMemory) :
    (set_memory sessions sid m).map Prod.fst = sessions.map Prod.fst := by
  induction sessions with
  | nil => rfl
  | cons p rest ih =>
    obtain ⟨s, v⟩ := p
    by_cases hs : s = sid <;> simp [set_memory, hs, ih]

/-- Behaviour of get_or_create_session on both branches, phrased through
resolved_id: the returned identifier, the created entry on the unknown
branch, and the in-place update on the known branch. -/
theorem get_or_create_spec (sessions : Store) (session_id : Option String)
    (k : Nat) (fresh : String) (now : Int) :
    (get_or_create_session sessions session_id k fresh now).2 =
        resolved_id session_id fresh ∧
    (find_session sessions (resolved_id session_id fresh) = none →
      (get_or_create_session sessions session_id k fresh now).1 =
          sessions ++ [(resolved_id session_id fresh, ⟨⟨k, []⟩, now, now⟩)] ∧
      find_session (get_or_create_session sessions session_id k fresh now).1
          (resolved_id session_id fresh) = some ⟨⟨k, []⟩, now, now⟩) ∧
    (∀ d, find_session sessions (resolved_id session_id fresh) = some d →
      find_session (get_or_create_session sessions session_id k fresh now).1
          (resolved_id session_id fresh) =
        some { d with memory := { d.memory with k := k },
                      last_accessed := now }) := by
  cases hf : find_session sessions (resolved_id session_id fresh) with
  | none =>
    refine ⟨?_, ?_, ?_⟩
    · simp [get_or_create_session, hf]
    · intro _
      constructor
      · simp [get_or_create_session, hf]
      · simp only [get_or_create_session, hf]
        exact find_session_append_self sessions _ _ hf
    · intro d hd
      exact absurd hd (by simp)
  | some data =>
    refine ⟨?_, ?_, ?_⟩
    · simp [get_or_create_session, hf]
    · intro h0
      exact absurd h0 (by simp)
    · intro d hd
      injection hd with hd
      subst hd
      simp only [get_or_create_session, hf]
      exact find_session_update_self sessions _ _ data hf

theorem string_data_append (s t : String) :
    (s ++ t).data = s.data ++ t.data := rfl

/-- After get_or_create_session, the returned identifier is present. -/
theorem get_or_create_find_some (sessions : Store)
    (session_id : Option String) (k : Nat) (fresh : String) (now : Int) :
    ∃ d, find_session (get_or_create_session sessions session_id k fresh now).1
        (get_or_create_session sessions session_id k fresh now).2 = some d := by
  obtain ⟨hid, hnew, hold⟩ := get_or_create_spec sessions session_id k fresh now
  cases hf : find_session sessions (resolved_id session_id fresh) with
  | none => exact ⟨_, by rw [hid]; exact (hnew hf).2⟩
  | some data => exact ⟨_, by rw [hid]; exact hold data hf⟩

/-- In a well-formed store, two entries sharing a key are the same entry. -/
theorem nodupkeys_entry_unique (l : Store) (h : NodupKeys l)
    {p q : String × SessionData} (hp : p ∈ l) (hq : q ∈ l)
    (hfst : p.1 = q.1) : p = q := by
  have h1 : find_session l p.1 = some p.2 :=
    (find_session_eq_some_iff l h p.1 p.2).mpr (by simpa using hp)
  have h2 : find_session l q.1 = some q.2 :=
    (find_session_eq_some_iff l h q.1 q.2).mpr (by simpa using hq)
  rw [hfst] at h1
  rw [h1] at h2
  injection h2 with h3
  exact Prod.ext hfst h3

/-- Filtering a well-formed store keeps it well-formed. -/
theorem nodupkeys_filter (l : Store) (h : NodupKeys l)
    (q : String × SessionData → Bool) : NodupKeys (l.filter q) := by
  unfold NodupKeys at h ⊢
  exact ((List.filter_sublist l).map Prod.fst).nodup h

/-! ## Claim theorems -/

/-- Claim C1 (code bug, evaluation at the failing input): with window size
K = 2 and the spec's own three exchanges, getHistory returns all three
exchanges — six turns, message_count 6 — instead of the claimed last
min(3,2) = 2 exchanges (four turns), and the stored turn sequence holds
6 > 2·K entries.  ConversationBufferWindowMemory windows only inside
load_memory_variables, which the code never calls: it appends through
chat_memory and reads chat_memory.messages raw, so the `k` set with the
comment "Keep last N exchanges" never takes effect. -/
theorem c1_windowing_bug_eval :
    get_session_history
      (search
        (search
          (search [] ⟨"hi", "gemini", none, 2⟩ "s1" 0 [] ""
            ⟨some LLM.gemini, none⟩ (fun _ _ => Except.ok "hello")).1
          ⟨"price?", "gemini", some "s1", 2⟩ "u2" 1 [] ""
          ⟨some LLM.gemini, none⟩ (fun _ _ => Except.ok "$10")).1
        ⟨"thanks", "gemini", some "s1", 2⟩ "u3" 2 [] ""
        ⟨some LLM.gemini, none⟩ (fun _ _ => Except.ok "np")).1
      "s1" =
    HistoryResponse.ok "s1"
      [("user", "hi"), ("assistant", "hello"), ("user", "price?"),
       ("assistant", "$10"), ("user", "thanks"), ("assistant", "np")] 6 := by
  decide

/-- Claim C2 (counterexample): a request on a fresh session whose model
invocation fails (no backend handle is live, so get_llm raises and the
apology string is returned) still appends the exchange: the stored turn
sequence grows from zero to two turns, the assistant turn being the
apology string — refuting "when the model invocation fails, the session's
stored turn sequence is left unchanged". -/
theorem c2_append_on_failure_counterexample :
    (search [] ⟨"hi", "gemini", none, 10⟩ "s1" 0 [] ""
        ⟨none, none⟩ (fun _ _ => Except.error "network down")).2.result =
      "Error processing request with gemini model" ∧
    (get_memory
        (search [] ⟨"hi", "gemini", none, 10⟩ "s1" 0 [] ""
          ⟨none, none⟩ (fun _ _ => Except.error "network down")).1 "s1").map
        (fun m => m.messages) =
      some [Msg.mk Role.human "hi",
        Msg.mk Role.ai "Error processing request with gemini model"] := by
  exact ⟨by decide, by decide⟩

/-- Claim C4 (counterexample): with an empty store and the unknown provided
identifier "abc", resolve creates the session under "abc" and returns
"abc" itself — the caller-supplied identifier, not the freshly minted
"fresh-id" — refuting "when the session identifier is absent or unknown
... a freshly minted, previously-unseen identifier is returned". -/
theorem c4_unknown_id_counterexample :
    (get_or_create_session [] (some "abc") 10 "fresh-id" 0).2 = "abc" ∧
    "abc" ≠ "fresh-id" ∧
    find_session [] "abc" = none := by
  exact ⟨by decide, by decide, rfl⟩

/-- Claim C6: clear_session removes the session and returns true exactly
when the identifier was present, false otherwise; and after any clear of
an identifier — in particular a successful clear of a known one — a
subsequent getHistory on that identifier reports Session not found
rather than crashing. -/
theorem c6_clear_then_history (sessions : Store) (session_id : String) :
    ((clear_session sessions session_id).2 = true ↔
      (find_session sessions session_id).isSome = true) ∧
    get_session_history (clear_session sessions session_id).1 session_id =
      HistoryResponse.notFound session_id := by
  cases hf : find_session sessions session_id with
  | none =>
    constructor
    · simp [clear_session, hf]
    · simp [clear_session, hf, get_session_history, get_memory]
  | some d =>
    constructor
    · simp [clear_session, hf]
    · simp [clear_session, hf, get_session_history, get_memory,
        find_session_erase]

/-- Claim C8: prompt assembly is a pure, deterministic function of the user
text, product block, web snippet, and prior turns: two invocations of the
assembly on identical arguments produce identical assembled content. -/
theorem c8_build_deterministic (u1 p1 w1 : String) (h1 : List Msg)
    (u2 p2 w2 : String) (h2 : List Msg)
    (hu : u1 = u2) (hp : p1 = p2) (hw : w1 = w2) (hh : h1 = h2) :
    assemble_messages u1 p1 w1 h1 = assemble_messages u2 p2 w2 h2 := by
  rw [hu, hp, hw, hh]

/-- Witness for C8: the determinism theorem applied at a concrete input. -/
theorem c8_build_deterministic_witness :
    assemble_messages "q" "p" "w" [Msg.mk Role.human "t"] =
      assemble_messages "q" "p" "w" [Msg.mk Role.human "t"] :=
  c8_build_deterministic "q" "p" "w" [Msg.mk Role.human "t"]
    "q" "p" "w" [Msg.mk Role.human "t"] rfl rfl rfl rfl

/-- Claim C3: the Model Gateway fails closed and never faults.  When the
requested backend name is not registered or its handle is absent (missing
credential), query_with_memory returns the structured apology value with
no network invocation attempted (second component false); and on every
path the caller receives a value — either the backend's answer on the
sole success path, or the apology string. -/
theorem c3_gateway_fails_closed (a : RAGAgent)
    (model user_input product_info web_results : String)
    (memory : ConversationBufferWindowMemory)
    (invoke_llm : LLM → List Msg → Except String String) :
    ((∃ e, get_llm a model = Except.error e) →
      query_with_memory a user_input product_info web_results memory model
          invoke_llm =
        ("Error processing request with " ++ model ++ " model", false)) ∧
    ((query_with_memory a user_input product_info web_results memory model
          invoke_llm).1 =
        "Error processing request with " ++ model ++ " model" ∨
      ∃ llm s, get_llm a model = Except.ok llm ∧
        invoke_llm llm (assemble_messages user_input product_info web_results
          memory.messages) = Except.ok s ∧
        query_with_memory a user_input product_info web_results memory model
          invoke_llm = (s, true)) := by
  cases hg : get_llm a model with
  | error e =>
    constructor
    · intro _
      simp [query_with_memory, hg]
    · left
      simp [query_with_memory, hg]
  | ok llm =>
    constructor
    · rintro ⟨e, he⟩
      exact absurd he (by simp)
    · cases hinv : invoke_llm llm (assemble_messages user_input product_info
          web_results memory.messages) with
      | ok s =>
        right
        exact ⟨llm, s, rfl, hinv, by simp [query_with_memory, hg, hinv]⟩
      | error e =>
        left
        simp [query_with_memory, hg, hinv]

/-- Witness for C3: an agent with no live handles, asked for "gemini",
yields the apology value and attempts no network call. -/
theorem c3_gateway_fails_closed_witness :
    query_with_memory ⟨none, none⟩ "hi" "p" "w" ⟨10, []⟩ "gemini"
        (fun _ _ => Except.error "network down") =
      ("Error processing request with " ++ "gemini" ++ " model", false) :=
  (c3_gateway_fails_closed ⟨none, none⟩ "gemini" "hi" "p" "w" ⟨10, []⟩
      (fun _ _ => Except.error "network down")).1
    ⟨"Model " ++ "gemini" ++ " not available", rfl⟩

set_option maxRecDepth 16384 in
/-- Claim C7 (counterexample): prompt assembly has no size limit.  At a
concrete input whose rendered size exceeds a limit that the assembly
without any prior turn would satisfy, the assembled prompt still contains
the oldest prior turn — so "the oldest prior turns are dropped one at a
time until the prompt fits or no prior turns remain" is false of the
code: no truncation exists. -/
theorem c7_no_truncation_counterexample :
    prompt_size (assemble_messages "hi" "p" "w"
        [Msg.mk Role.human "aaaaaaaaaa", Msg.mk Role.ai "bbbbbbbbbb"]) >
      prompt_size (assemble_messages "hi" "p" "w" []) ∧
    Msg.mk Role.human "aaaaaaaaaa" ∈ assemble_messages "hi" "p" "w"
        [Msg.mk Role.human "aaaaaaaaaa", Msg.mk Role.ai "bbbbbbbbbb"] := by
  decide

set_option maxRecDepth 16384 in
/-- Claim C7 (amended): the code's prompt assembly applies no size limit
and never raises: for every input it totally produces the system message
(which carries the product and web blocks verbatim) first, every prior
turn in order, and the newest user turn last — nothing is ever dropped. -/
theorem c7_amended_no_size_limit (user_input product_info web_results : String)
    (chat_history : List Msg) :
    (assemble_messages user_input product_info web_results chat_history).head? =
      some (Msg.mk Role.system (system_prompt product_info web_results)) ∧
    (assemble_messages user_input product_info web_results
        chat_history).getLast? = some (Msg.mk Role.human user_input) ∧
    chat_history.Sublist
      (assemble_messages user_input product_info web_results chat_history) ∧
    List.IsInfix product_info.data
      (system_prompt product_info web_results).data ∧
    List.IsInfix web_results.data
      (system_prompt product_info web_results).data ∧
    (assemble_messages user_input product_info web_results
        chat_history).length = chat_history.length + 2 := by
  refine ⟨rfl, ?_, ?_, ?_, ?_, by simp [assemble_messages]⟩
  · rw [assemble_messages, ← List.cons_append, List.getLast?_concat]
  · exact (List.sublist_append_left chat_history
      [Msg.mk Role.human user_input]).cons _
  · refine ⟨("You are an expert assistant with access to product database and web search results.\n\nProduct Information:\n").data,
      ("\n\nWeb Search Results:\n" ++ web_results ++
        "\n\nIMPORTANT INSTRUCTIONS:\n- Always review the conversation history before responding\n- When user asks follow-up questions like \"which one\" or \"from those you mentioned\", refer back to your previous responses\n- If you mentioned specific products/items earlier, reference them directly\n- Use information from product database, web search, AND previous conversation\n- Be consistent with what you said before").data, ?_⟩
    simp only [system_prompt, string_data_append, List.append_assoc]
  · refine ⟨("You are an expert assistant with access to product database and web search results.\n\nProduct Information:\n" ++
        product_info ++ "\n\nWeb Search Results:\n").data,
      ("\n\nIMPORTANT INSTRUCTIONS:\n- Always review the conversation history before responding\n- When user asks follow-up questions like \"which one\" or \"from those you mentioned\", refer back to your previous responses\n- If you mentioned specific products/items earlier, reference them directly\n- Use information from product database, web search, AND previous conversation\n- Be consistent with what you said before").data, ?_⟩
    simp only [system_prompt, string_data_append, List.append_assoc]

/-- Claim C9: has_conversation_history is computed from the memory object
after the current exchange has been appended, so every /search response —
including the very first turn of a brand-new session, under any gateway
outcome — reports it true. -/
theorem c9_has_history_always (sessions : Store) (q : QueryRequest)
    (fresh : String) (now : Int) (semantic_results : List RetrievedItem)
    (web_snippets : String) (a : RAGAgent)
    (invoke_llm : LLM → List Msg → Except String String) :
    (search sessions q fresh now semantic_results web_snippets a
        invoke_llm).2.has_conversation_history = true := by
  obtain ⟨d, hd⟩ :=
    get_or_create_find_some sessions q.session_id q.max_memory fresh now
  have hmem : get_memory
      (get_or_create_session sessions q.session_id q.max_memory fresh now).1
      (get_or_create_session sessions q.session_id q.max_memory fresh now).2 =
      some d.memory := by
    simp [get_memory, hd]
  have hne : ∀ (l : List Msg) (x : Msg), (l ++ [x]).isEmpty = false := by
    intro l x
    cases l <;> rfl
  simp [search, hmem, add_user_message, add_ai_message, hne]

/-- Claim C2 (amended): once the session is resolved, the /search handler
appends the exchange on every request — regardless of whether the model
invocation succeeded — storing the returned result (the answer, or the
apology string on failure) as the assistant turn. -/
theorem c2_amended_always_appends (sessions : Store) (q : QueryRequest)
    (fresh : String) (now : Int) (semantic_results : List RetrievedItem)
    (web_snippets : String) (a : RAGAgent)
    (invoke_llm : LLM → List Msg → Except String String) :
    ∃ m, get_memory
        (get_or_create_session sessions q.session_id q.max_memory fresh now).1
        (get_or_create_session sessions q.session_id q.max_memory fresh now).2 =
          some m ∧
      (get_memory (search sessions q fresh now semantic_results web_snippets a
            invoke_llm).1
          (search sessions q fresh now semantic_results web_snippets a
            invoke_llm).2.session_id).map
          (fun mm => mm.messages) =
        some (m.messages ++ [Msg.mk Role.human q.user_input,
          Msg.mk Role.ai (search sessions q fresh now semantic_results
            web_snippets a invoke_llm).2.result]) := by
  obtain ⟨d, hd⟩ :=
    get_or_create_find_some sessions q.session_id q.max_memory fresh now
  have hmem : get_memory
      (get_or_create_session sessions q.session_id q.max_memory fresh now).1
      (get_or_create_session sessions q.session_id q.max_memory fresh now).2 =
      some d.memory := by
    simp [get_memory, hd]
  refine ⟨d.memory, hmem, ?_⟩
  have hset := find_session_set_memory_self
    (get_or_create_session sessions q.session_id q.max_memory fresh now).1
    (get_or_create_session sessions q.session_id q.max_memory fresh now).2
    (add_ai_message (add_user_message d.memory q.user_input)
      (query_llm_with_context q.user_input (format_products semantic_results)
        web_snippets (some d.memory) q.model a invoke_llm).1) d hd
  simp only [add_user_message, add_ai_message, List.append_assoc,
    List.cons_append, List.nil_append] at hset
  simp only [search]
  rw [hmem]
  simp [get_memory, hset, add_user_message, add_ai_message, List.append_assoc]

/-- Claim C4 (amended): with an absent (or empty, which Python treats as
absent) identifier and an unseen mint, resolve returns the freshly minted
previously-unseen identifier and creates the session under it; with a
provided identifier that is unknown, it creates the session under that
identifier and returns it unchanged; with a known identifier it returns
the same identifier and updates the session's window size and
last-accessed timestamp in place. -/
theorem c4_resolve_amended (sessions : Store) (k : Nat) (fresh : String)
    (now : Int) :
    (∀ session_id, (session_id = none ∨ session_id = some "") →
      find_session sessions fresh = none →
      (get_or_create_session sessions session_id k fresh now).2 = fresh ∧
      find_session sessions
        (get_or_create_session sessions session_id k fresh now).2 = none ∧
      find_session (get_or_create_session sessions session_id k fresh now).1
        (get_or_create_session sessions session_id k fresh now).2 =
        some ⟨⟨k, []⟩, now, now⟩) ∧
    (∀ s, ¬ s = "" → find_session sessions s = none →
      (get_or_create_session sessions (some s) k fresh now).2 = s ∧
      find_session (get_or_create_session sessions (some s) k fresh now).1 s =
        some ⟨⟨k, []⟩, now, now⟩) ∧
    (∀ s d, ¬ s = "" → find_session sessions s = some d →
      (get_or_create_session sessions (some s) k fresh now).2 = s ∧
      find_session (get_or_create_session sessions (some s) k fresh now).1 s =
        some { d with memory := { d.memory with k := k },
                      last_accessed := now }) := by
  refine ⟨?_, ?_, ?_⟩
  · intro session_id hsid hf
    have hrid : resolved_id session_id fresh = fresh := by
      rcases hsid with h | h <;> subst h <;> simp [resolved_id]
    obtain ⟨hid, hnew, _⟩ := get_or_create_spec sessions session_id k fresh now
    rw [hrid] at hid hnew
    obtain ⟨_, hfind⟩ := hnew hf
    exact ⟨hid, by rw [hid]; exact hf, by rw [hid]; exact hfind⟩
  · intro s hs hf
    have hrid : resolved_id (some s) fresh = s := by simp [resolved_id, hs]
    obtain ⟨hid, hnew, _⟩ := get_or_create_spec sessions (some s) k fresh now
    rw [hrid] at hid hnew
    obtain ⟨_, hfind⟩ := hnew hf
    exact ⟨hid, hfind⟩
  · intro s d hs hf
    have hrid : resolved_id (some s) fresh = s := by simp [resolved_id, hs]
    obtain ⟨hid, _, hold⟩ := get_or_create_spec sessions (some s) k fresh now
    rw [hrid] at hid hold
    exact ⟨hid, hold d hf⟩

/-- Witness for the amended C4: all three branches exercised on the
one-session store [("a", ...)] with mint "f". -/
theorem c4_resolve_amended_witness :
    ((get_or_create_session [("a", ⟨⟨1, []⟩, 0, 0⟩)] none 5 "f" 7).2 = "f" ∧
      find_session [("a", ⟨⟨1, []⟩, 0, 0⟩)]
        (get_or_create_session [("a", ⟨⟨1, []⟩, 0, 0⟩)] none 5 "f" 7).2 =
        none ∧
      find_session
        (get_or_create_session [("a", ⟨⟨1, []⟩, 0, 0⟩)] none 5 "f" 7).1
        (get_or_create_session [("a", ⟨⟨1, []⟩, 0, 0⟩)] none 5 "f" 7).2 =
        some ⟨⟨5, []⟩, 7, 7⟩) ∧
    ((get_or_create_session [("a", ⟨⟨1, []⟩, 0, 0⟩)] (some "b") 5 "f" 7).2 =
        "b" ∧
      find_session
        (get_or_create_session [("a", ⟨⟨1, []⟩, 0, 0⟩)] (some "b") 5 "f" 7).1
        "b" = some ⟨⟨5, []⟩, 7, 7⟩) ∧
    ((get_or_create_session [("a", ⟨⟨1, []⟩, 0, 0⟩)] (some "a") 5 "f" 7).2 =
        "a" ∧
      find_session
        (get_or_create_session [("a", ⟨⟨1, []⟩, 0, 0⟩)] (some "a") 5 "f" 7).1
        "a" = some ⟨⟨5, []⟩, 0, 7⟩) :=
  ⟨(c4_resolve_amended [("a", ⟨⟨1, []⟩, 0, 0⟩)] 5 "f" 7).1 none
      (Or.inl rfl) rfl,
   (c4_resolve_amended [("a", ⟨⟨1, []⟩, 0, 0⟩)] 5 "f" 7).2.1 "b"
      (by decide) rfl,
   (c4_resolve_amended [("a", ⟨⟨1, []⟩, 0, 0⟩)] 5 "f" 7).2.2 "a"
      ⟨⟨1, []⟩, 0, 0⟩ (by decide) rfl⟩

/-- Claim C5: for every well-formed store state and TTL, sweep removes a
session if and only if now minus its last-accessed timestamp strictly
exceeds the TTL, leaves all other sessions untouched (same identifier
mapped to the same data), and the count it reports (the printed number,
the numeric output of the embedding) equals the number of sessions
removed. -/
theorem c5_sweep_iff (sessions : Store) (now ttl : Int)
    (h : NodupKeys sessions) :
    (∀ sid d,
      find_session (cleanup_old_sessions sessions now ttl).1 sid = some d ↔
        (find_session sessions sid = some d ∧
          ¬ now - d.last_accessed > ttl)) ∧
    (cleanup_old_sessions sessions now ttl).2 +
        (cleanup_old_sessions sessions now ttl).1.length =
      sessions.length := by
  have hr1 : (cleanup_old_sessions sessions now ttl).1 =
      sessions.filter (fun p => decide (p.1 ∉
        ((sessions.filter (fun p =>
          decide (p.2.last_accessed < now - ttl))).map Prod.fst))) := by
    simp only [cleanup_old_sessions]
    exact foldl_erase_eq_filter _ _
  have hmm : ∀ p, p ∈ sessions →
      (p.1 ∈ (sessions.filter (fun p =>
          decide (p.2.last_accessed < now - ttl))).map Prod.fst ↔
        (decide (p.2.last_accessed < now - ttl) : Bool) = true) := by
    intro p hp
    constructor
    · intro hmem
      obtain ⟨r, hr, hfst⟩ := List.mem_map.mp hmem
      have hr2 := List.mem_filter.mp hr
      have hrp : r = p := nodupkeys_entry_unique sessions h hr2.1 hp hfst
      rw [← hrp]
      exact hr2.2
    · intro hc
      exact List.mem_map.mpr ⟨p, List.mem_filter.mpr ⟨hp, hc⟩, rfl⟩
  have hfilter : (cleanup_old_sessions sessions now ttl).1 =
      sessions.filter (fun p =>
        !(decide (p.2.last_accessed < now - ttl))) := by
    rw [hr1]
    apply List.filter_congr
    intro p hp
    have hiff := hmm p hp
    by_cases hb : (decide (p.2.last_accessed < now - ttl) : Bool) = true
    · simp [hiff, hb]
    · simp [hiff, hb]
  constructor
  · intro sid d
    rw [hfilter]
    have hn2 := nodupkeys_filter sessions h
      (fun p => !(decide (p.2.last_accessed < now - ttl)))
    constructor
    · intro hfind
      have hmem := (find_session_eq_some_iff _ hn2 sid d).mp hfind
      have hmem2 := List.mem_filter.mp hmem
      refine ⟨(find_session_eq_some_iff sessions h sid d).mpr hmem2.1, ?_⟩
      have hb := hmem2.2
      simp only [Bool.not_eq_true', decide_eq_false_iff_not] at hb
      omega
    · rintro ⟨hfind, hgt⟩
      apply (find_session_eq_some_iff _ hn2 sid d).mpr
      refine List.mem_filter.mpr
        ⟨(find_session_eq_some_iff sessions h sid d).mp hfind, ?_⟩
      simp only [Bool.not_eq_true', decide_eq_false_iff_not]
      omega
  · have hlen : (cleanup_old_sessions sessions now ttl).2 =
        (sessions.filter (fun p =>
          decide (p.2.last_accessed < now - ttl))).length := by
      simp only [cleanup_old_sessions]
      simp [List.length_map]
    rw [hlen, hfilter]
    exact length_filter_add_length_filter_not sessions _

/-- Witness for C5: a two-session store at now = 100 with TTL 10; the
session idle for 100 units satisfies the removal condition, the one idle
for 5 does not, and the count plus the surviving length is the original
size. -/
theorem c5_sweep_iff_witness :
    (find_session
        (cleanup_old_sessions
          [("old", ⟨⟨1, []⟩, 0, 0⟩), ("new", ⟨⟨1, []⟩, 0, 95⟩)] 100 10).1
        "old" = some ⟨⟨1, []⟩, 0, 0⟩ ↔
      (find_session
        [("old", ⟨⟨1, []⟩, 0, 0⟩), ("new", ⟨⟨1, []⟩, 0, 95⟩)] "old" =
          some ⟨⟨1, []⟩, 0, 0⟩ ∧
        ¬ (100 : Int) - (0 : Int) > 10)) ∧
    (cleanup_old_sessions
        [("old", ⟨⟨1, []⟩, 0, 0⟩), ("new", ⟨⟨1, []⟩, 0, 95⟩)] 100 10).2 +
      (cleanup_old_sessions
        [("old", ⟨⟨1, []⟩, 0, 0⟩), ("new", ⟨⟨1, []⟩, 0, 95⟩)] 100 10).1.length =
      2 :=
  ⟨(c5_sweep_iff [("old", ⟨⟨1, []⟩, 0, 0⟩), ("new", ⟨⟨1, []⟩, 0, 95⟩)]
      100 10 (by unfold NodupKeys; decide)).1 "old" ⟨⟨1, []⟩, 0, 0⟩,
   (c5_sweep_iff [("old", ⟨⟨1, []⟩, 0, 0⟩), ("new", ⟨⟨1, []⟩, 0, 95⟩)]
      100 10 (by unfold NodupKeys; decide)).2⟩

/-- Claim C10: after any get_or_create_session against a well-formed
store, the returned identifier is a key of the store and get_memory on it
returns the session's memory object rather than None; and every store
operation — resolve, clear, sweep, and the in-place memory write-back —
preserves store well-formedness, under which each stored identifier maps
to one full session record (memory plus both timestamps, guaranteed by
construction of SessionData). -/
theorem c10_store_invariant (sessions : Store) (h : NodupKeys sessions)
    (session_id : Option String) (k : Nat) (fresh : String) (now : Int)
    (cid : String) (cnow cttl : Int) (mid : String)
    (mm : ConversationBufferWindowMemory) :
    (find_session (get_or_create_session sessions session_id k fresh now).1
        (get_or_create_session sessions session_id k fresh now).2).isSome =
      true ∧
    (get_memory (get_or_create_session sessions session_id k fresh now).1
        (get_or_create_session sessions session_id k fresh now).2).isSome =
      true ∧
    NodupKeys (get_or_create_session sessions session_id k fresh now).1 ∧
    NodupKeys (clear_session sessions cid).1 ∧
    NodupKeys (cleanup_old_sessions sessions cnow cttl).1 ∧
    NodupKeys (set_memory sessions mid mm) := by
  obtain ⟨d, hd⟩ := get_or_create_find_some sessions session_id k fresh now
  refine ⟨by simp [hd], by simp [get_memory, hd], ?_, ?_, ?_, ?_⟩
  · cases hf : find_session sessions (resolved_id session_id fresh) with
    | none =>
      have hnotin : resolved_id session_id fresh ∉ sessions.map Prod.fst :=
        (find_session_eq_none_iff sessions _).mp hf
      simp only [get_or_create_session, hf]
      unfold NodupKeys at h ⊢
      rw [List.map_append]
      simp [List.nodup_append, h, hnotin]
    | some d2 =>
      simp only [get_or_create_session, hf]
      unfold NodupKeys at h ⊢
      rw [map_fst_update]
      exact h
  · cases hf : find_session sessions cid with
    | none =>
      simp only [clear_session, hf]
      exact h
    | some d2 =>
      simp only [clear_session, hf]
      rw [erase_session_eq_filter]
      exact nodupkeys_filter sessions h _
  · have hr1 : (cleanup_old_sessions sessions cnow cttl).1 =
        sessions.filter (fun p => decide (p.1 ∉
          ((sessions.filter (fun p =>
            decide (p.2.last_accessed < cnow - cttl))).map Prod.fst))) := by
      simp only [cleanup_old_sessions]
      exact foldl_erase_eq_filter _ _
    rw [hr1]
    exact nodupkeys_filter sessions h _
  · unfold NodupKeys at h ⊢
    rw [map_fst_set_memory]
    exact h

/-- Witness for C10: the invariant theorem applied to the empty
(well-formed) store. -/
theorem c10_store_invariant_witness :
    (find_session (get_or_create_session [] none 3 "f" 0).1
        (get_or_create_session [] none 3 "f" 0).2).isSome = true ∧
    (get_memory (get_or_create_session [] none 3 "f" 0).1
        (get_or_create_session [] none 3 "f" 0).2).isSome = true ∧
    NodupKeys (get_or_create_session [] none 3 "f" 0).1 ∧
    NodupKeys (clear_session [] "c").1 ∧
    NodupKeys (cleanup_old_sessions [] 0 24).1 ∧
    NodupKeys (set_memory [] "m" ⟨1, []⟩) :=
  c10_store_invariant [] (by simp [NodupKeys]) none 3 "f" 0 "c" 0 24 "m"
    ⟨1, []⟩

end SemanticSearch
